import Mathlib

/-!
Shallow embedding of the Quran-proxy service core of this repository
(file src/services/quranService.js): the OAuth2 client-credentials token
manager with expiry-aware caching, the TTL verse-result cache, and the
search-then-hydrate retrieval operations getVerses and getVerseDetails.

Network I/O is modelled by an oracle that a single invocation consumes:
the response the token endpoint would give, the response the search
endpoint would give, and a response per detail fetch. Thrown JS errors
become an explicit error outcome; the distinct Error messages thrown by
the source become the constructors of QError. JS null/undefined values
that flow through the code are modelled with Option. Time is an integer
count of milliseconds, as returned by Date.now().
-/

namespace QuranSrv

/-- The three distinct Error values thrown by quranService.js:
the token-exchange failure message thrown by getAccessToken, the generic
failure message thrown by getVerses, and the generic failure message
thrown by getVerseDetails. -/
inductive QError where
  | authFailure
  | versesFailure
  | detailsFailure
deriving DecidableEq, Repr

/-- The mutable token pair of the service: this.accessToken and
this.tokenExpiry. none models the JS null/undefined (and, for the
expiry, NaN, which behaves identically in every operation modelled
here: it is falsy and every comparison with it is false). -/
structure TokenState where
  accessToken : Option String
  tokenExpiry : Option Int
deriving DecidableEq, Repr

/-- A parsed 2xx grant-response body. The fields may be absent
(JS undefined) when the upstream body is malformed. -/
structure GrantBody where
  access_token : Option String
  expires_in : Option Int
deriving DecidableEq, Repr

/-- Outcome of the POST to the oauth2 token endpoint, as axios delivers
it: success carries response.data (none models a null body, whose
destructuring throws); failure is any network error or non-2xx status,
on which axios throws. -/
inductive TokenHttpResult where
  | success (body : Option GrantBody)
  | failure
deriving DecidableEq, Repr

/-- Result of a token-manager operation: the returned token value
(possibly JS undefined) or a thrown error. -/
inductive TokenOutcome where
  | ok (token : Option String)
  | error (e : QError)
deriving DecidableEq, Repr

/-- isTokenValid from quranService.js: false when accessToken or
tokenExpiry is falsy (null, undefined, empty string, 0, NaN), otherwise
true iff tokenExpiry minus now exceeds the 30000 ms buffer. -/
def isTokenValid (st : TokenState) (now : Int) : Bool :=
  match st.accessToken, st.tokenExpiry with
  | some t, some e => t ≠ "" && e ≠ 0 && decide (e - now > 30000)
  | _, _ => false

/-- getAccessToken from quranService.js. On an axios throw (network
error or non-2xx) or a null body (destructuring throws), the catch
block rethrows the authentication-failure Error and the token pair is
left untouched. On a 2xx body the pair is replaced as a whole:
accessToken becomes the body's access_token field (undefined when
absent) and tokenExpiry becomes now plus expires_in times 1000
(NaN, modelled none, when expires_in is absent); no validation of the
fields happens, so a malformed 2xx body is treated as success. -/
def getAccessToken (st : TokenState) (now : Int) (resp : TokenHttpResult) :
    TokenOutcome × TokenState :=
  match resp with
  | .failure => (.error .authFailure, st)
  | .success none => (.error .authFailure, st)
  | .success (some body) =>
      let newExpiry : Option Int :=
        match body.expires_in with
        | some x => some (now + x * 1000)
        | none => none
      (.ok body.access_token, ⟨body.access_token, newExpiry⟩)

/-- ensureValidToken from quranService.js: return the held token when
isTokenValid, otherwise delegate to getAccessToken. The Nat counts the
calls made to the token endpoint (0 or 1). -/
def ensureValidToken (st : TokenState) (now : Int) (resp : TokenHttpResult) :
    TokenOutcome × TokenState × Nat :=
  if isTokenValid st now then (.ok st.accessToken, st, 0)
  else
    match getAccessToken st now resp with
    | (r, st') => (r, st', 1)

/-- Little-endian decimal digits of a natural number, with structural
fuel so that concrete values reduce inside the kernel; any fuel of at
least n computes the digits of n fully. -/
def natDigitsAux : Nat → Nat → List Nat
  | _, 0 => []
  | 0, _ + 1 => []
  | fuel + 1, n + 1 => (n + 1) % 10 :: natDigitsAux fuel ((n + 1) / 10)

/-- Little-endian decimal digits of n (empty for 0). -/
def natDigits (n : Nat) : List Nat :=
  natDigitsAux n n

/-- Decimal representation of a natural number, modelling the implicit
number-to-string conversion a JS template literal performs on the size
and page arguments when the cache key is built. -/
def natRepr (n : Nat) : String :=
  if n = 0 then "0"
  else String.mk (((natDigits n).map Nat.digitChar).reverse)

/-- The cache key built by getVerses, a colon-joined template of the
four inputs. -/
def versesCacheKey (arabicWord : String) (size : Nat) (translationIds : String)
    (page : Nat) : String :=
  "verses:" ++ arabicWord ++ ":" ++ natRepr size ++ ":" ++ translationIds
    ++ ":" ++ natRepr page

/-- The cache key built by getVerseDetails, a colon-joined template of
the verse reference and the translation-id list. -/
def detailsCacheKey (verseRef : String) (translationIds : String) : String :=
  "verse:" ++ verseRef ++ ":" ++ translationIds

/-- The pagination descriptor shape this service constructs as a
fallback; upstream descriptors are passed through opaquely and are
modelled as values of the same shape. -/
structure Pagination where
  current_page : Int
  total_pages : Int
  total_records : Int
deriving DecidableEq, Repr

/-- The assembled getVerses response: success flag, the hydrated verse
list stored under data.search.results, the query echo, and the
pagination descriptor. A list element of the form some s is an upstream
verse payload (opaque to this service); none models a JS undefined that
a 2xx detail body lacking a verse field would contribute (the source
filter drops only null, the mark of a thrown fetch, and keeps
undefined). -/
structure VersesResult where
  success : Bool
  results : List (Option String)
  query : String
  pagination : Pagination
deriving DecidableEq, Repr

/-- response.data of a 2xx detail fetch: the verse field may be absent
(none), in which case getVerseDetails crashes on reading
translations of undefined and its catch block turns that into the
generic details failure. -/
structure DetailBody where
  verse : Option String
deriving DecidableEq, Repr

/-- The assembled getVerseDetails response: success flag plus the whole
upstream response body. -/
structure DetailsResult where
  success : Bool
  data : DetailBody
deriving DecidableEq, Repr

/-- A value stored in the shared NodeCache instance: either an
assembled getVerses response or an assembled getVerseDetails
response. JS stores both in the one untyped cache; a read returns
whatever object sits under the key. -/
inductive CacheValue where
  | verses (r : VersesResult)
  | detail (r : DetailsResult)
deriving DecidableEq, Repr

/-- One cache slot: the stored value and its insertion instant, from
which NodeCache derives the absolute expiry time. -/
structure CacheEntry where
  value : CacheValue
  insertedAt : Int
deriving DecidableEq, Repr

/-- The verse cache, an association list newest-first; a set on an
existing key shadows the older entry, as a NodeCache overwrite does. -/
abbrev Cache := List (String × CacheEntry)

/-- The stdTTL of the verse cache, 86400 seconds, in milliseconds. -/
def ttlMs : Int := 86400 * 1000

/-- NodeCache.get as configured here: return the stored value when the
key is present and now is still before the absolute expiry instant
insertedAt + stdTTL; undefined (none) otherwise. Validity is checked
at read time, independent of the periodic sweep. -/
def cacheGet (c : Cache) (now : Int) (key : String) : Option CacheValue :=
  match c.find? (fun e => e.1 == key) with
  | some (_, entry) => if now < entry.insertedAt + ttlMs then some entry.value else none
  | none => none

/-- NodeCache.set: store the value under the key with the standard TTL
starting now. -/
def cacheSet (c : Cache) (key : String) (v : CacheValue) (now : Int) : Cache :=
  (key, ⟨v, now⟩) :: c

/-- The search payload under response.data.search of a 2xx search
response: the result list (each element standing for one hit, carrying
its verse_key) and the optional pagination descriptor. -/
structure SearchPayload where
  results : List String
  pagination : Option Pagination
deriving DecidableEq, Repr

/-- Outcome of the GET to the search endpoint: success carries
response.data.search (none when the body has no search field); failure
is an axios throw (network error, timeout or non-2xx) with the HTTP
status when one exists. The source inspects neither the status nor
anything else about the thrown error. -/
inductive SearchHttpResult where
  | success (search : Option SearchPayload)
  | failure (status : Nat)
deriving DecidableEq, Repr

/-- Outcome of one detail fetch during hydration, as seen by the
per-element closure: none models a thrown axios error (caught, logged
and mapped to null); some body is a 2xx response whose data.verse is
body (itself an Option, none when the verse field is absent, which the
closure returns as undefined). -/
abbrev DetailFetchResult := Option (Option String)

/-- Outcome of the GET to the verses/by_key endpoint inside
getVerseDetails. -/
inductive DetailsHttpResult where
  | success (body : DetailBody)
  | failure (status : Nat)
deriving DecidableEq, Repr

/-- The network responses one getVerses invocation would observe: the
token-endpoint response (consumed only when the held token is invalid),
the search-endpoint response, and a detail-fetch response for the hit
at each index. -/
structure VersesOracle where
  tokenResp : TokenHttpResult
  searchResp : SearchHttpResult
  detailResp : Nat → DetailFetchResult

/-- The network responses one getVerseDetails invocation would
observe. -/
structure DetailsOracle where
  tokenResp : TokenHttpResult
  resp : DetailsHttpResult

/-- Result of one invocation of getVerses or getVerseDetails: the
returned value (whatever object the cache held, or the freshly
assembled response) or the thrown error, the token state and cache
afterwards, and how many token-endpoint, search-endpoint and
detail-endpoint calls the invocation made. -/
structure StepOut where
  outcome : Except QError CacheValue
  token : TokenState
  cache : Cache
  tokenCalls : Nat
  searchCalls : Nat
  detailCalls : Nat

/-- getVerses from quranService.js. Cache hit returns the stored value
with no upstream call and no state change. On a miss: ensure a valid
token (any throw from that is caught by the enclosing try and
re-thrown as the generic verses failure), issue one search call (any
throw, a 401 included, becomes the same generic failure with no retry),
short-circuit on zero hits without caching, otherwise fetch details for
every hit, drop the fetches that threw, assemble the response in search
order, cache it and return it. -/
def getVerses (st : TokenState) (c : Cache) (now : Int) (arabicWord : String)
    (size : Nat) (translationIds : String) (page : Nat) (o : VersesOracle) :
    StepOut :=
  let cacheKey := versesCacheKey arabicWord size translationIds page
  match cacheGet c now cacheKey with
  | some v => ⟨.ok v, st, c, 0, 0, 0⟩
  | none =>
    match ensureValidToken st now o.tokenResp with
    | (.error _, st', n) => ⟨.error .versesFailure, st', c, n, 0, 0⟩
    | (.ok _, st', n) =>
      match o.searchResp with
      | .failure _ => ⟨.error .versesFailure, st', c, n, 1, 0⟩
      | .success data =>
        let searchResults := (data.map (·.results)).getD []
        let pagination := (data.map (·.pagination)).getD none
        if searchResults.isEmpty then
          ⟨.ok (.verses ⟨true, [], arabicWord, pagination.getD ⟨(page : Int), 0, 0⟩⟩),
            st', c, n, 1, 0⟩
        else
          let validVerses := (List.range searchResults.length).filterMap o.detailResp
          let result : VersesResult :=
            ⟨true, validVerses, arabicWord,
              pagination.getD ⟨(page : Int), 1, (validVerses.length : Int)⟩⟩
          ⟨.ok (.verses result), st', cacheSet c cacheKey (.verses result) now,
            n, 1, searchResults.length⟩

/-- getVerseDetails from quranService.js. Cache hit returns the stored
value with no upstream call and no state change. On a miss: ensure a
valid token, issue one by_key call; any throw along the way (the token
exchange, the fetch, or reading translations of an absent verse field)
is caught and re-thrown as the generic details failure; a response
carrying a verse is assembled, cached and returned. -/
def getVerseDetails (st : TokenState) (c : Cache) (now : Int) (verseRef : String)
    (translationIds : String) (o : DetailsOracle) : StepOut :=
  let cacheKey := detailsCacheKey verseRef translationIds
  match cacheGet c now cacheKey with
  | some v => ⟨.ok v, st, c, 0, 0, 0⟩
  | none =>
    match ensureValidToken st now o.tokenResp with
    | (.error _, st', n) => ⟨.error .detailsFailure, st', c, n, 0, 0⟩
    | (.ok _, st', n) =>
      match o.resp with
      | .failure _ => ⟨.error .detailsFailure, st', c, n, 0, 1⟩
      | .success body =>
        match body.verse with
        | none => ⟨.error .detailsFailure, st', c, n, 0, 1⟩
        | some _ =>
          let result : DetailsResult := ⟨true, body⟩
          ⟨.ok (.detail result), st', cacheSet c cacheKey (.detail result) now, n, 0, 1⟩

/-- The immutable configuration the constructor computes once: the
resolved environment tag and the two base URLs. -/
structure ServiceConfig where
  environment : String
  authUrl : String
  apiBaseUrl : String
deriving DecidableEq, Repr

/-- getAuthUrl from quranService.js. -/
def getAuthUrl (environment : String) : String :=
  if environment = "production" then "https://oauth2.quran.foundation"
  else "https://prelive-oauth2.quran.foundation"

/-- getApiBaseUrl from quranService.js. -/
def getApiBaseUrl (environment : String) : String :=
  if environment = "production" then "https://apis.quran.foundation"
  else "https://apis-prelive.quran.foundation"

/-- The constructor of QuranService as far as environment handling
goes: the QF_ENV variable (none when unset) falls back to prelive when
unset or empty (the JS or-default treats the empty string as falsy);
no other validation occurs, and both base URLs are resolved once from
the stored tag. -/
def mkQuranService (qfEnv : Option String) : ServiceConfig :=
  let environment :=
    match qfEnv with
    | some s => if s = "" then "prelive" else s
    | none => "prelive"
  ⟨environment, getAuthUrl environment, getApiBaseUrl environment⟩

/-- A sample stored getVerses payload, used to exercise the cache-hit
path on concrete inputs. -/
def sampleVersesValue : CacheValue :=
  .verses ⟨true, [some "v1"], "مِن", ⟨1, 1, 1⟩⟩

/-- A sample stored getVerseDetails payload. -/
def sampleDetailValue : CacheValue :=
  .detail ⟨true, ⟨some "vd"⟩⟩

/-- A sample cache populated with one entry of each kind, both inserted
at time 0. -/
def sampleCache : Cache :=
  [(versesCacheKey "مِن" 2 "161,131" 1, ⟨sampleVersesValue, 0⟩),
   (detailsCacheKey "2:255" "161,131", ⟨sampleDetailValue, 0⟩)]

/-! ## General lemmas -/

/-- Strings with equal character data are equal. -/
theorem string_data_inj {s t : String} (h : s.data = t.data) : s = t := by
  cases s; cases t; exact congrArg String.mk h

/-- Case analysis of one getVerses invocation: it either returns a
value, or it throws the one generic verses-failure error and leaves
the cache exactly as it found it. -/
theorem getVerses_cases (st : TokenState) (c : Cache) (now : Int) (w : String)
    (s : Nat) (t : String) (p : Nat) (o : VersesOracle) :
    (∃ v, (getVerses st c now w s t p o).outcome = .ok v) ∨
    ((getVerses st c now w s t p o).outcome = .error .versesFailure ∧
      (getVerses st c now w s t p o).cache = c) := by
  simp only [getVerses]
  repeat' split
  all_goals first
    | exact Or.inl ⟨_, rfl⟩
    | exact Or.inr ⟨rfl, rfl⟩

/-- Case analysis of one getVerseDetails invocation: it either returns
a value, or it throws the one generic details-failure error and leaves
the cache exactly as it found it. -/
theorem getVerseDetails_cases (st : TokenState) (c : Cache) (now : Int)
    (ref : String) (tids : String) (o : DetailsOracle) :
    (∃ v, (getVerseDetails st c now ref tids o).outcome = .ok v) ∨
    ((getVerseDetails st c now ref tids o).outcome = .error .detailsFailure ∧
      (getVerseDetails st c now ref tids o).cache = c) := by
  simp only [getVerseDetails]
  repeat' split
  all_goals first
    | exact Or.inl ⟨_, rfl⟩
    | exact Or.inr ⟨rfl, rfl⟩

/-! ## Claim theorems -/

/-- C1 (counterexample): with a valid cached token and a cache miss, a
401 on the search call is not retried: the invocation makes zero calls
to the token endpoint (so no re-acquisition happens, even though the
oracle here would grant a fresh token), the held token is left in
place rather than invalidated, and the caller just receives the
generic verses failure. -/
theorem c1_search_401_not_retried :
    (getVerses ⟨some "tok", some 1000000⟩ [] 0 "w" 2 "161,131" 1
        ⟨.success (some ⟨some "fresh", some 3600⟩), .failure 401,
          fun _ => some (some "v")⟩).tokenCalls = 0 ∧
    (getVerses ⟨some "tok", some 1000000⟩ [] 0 "w" 2 "161,131" 1
        ⟨.success (some ⟨some "fresh", some 3600⟩), .failure 401,
          fun _ => some (some "v")⟩).token = ⟨some "tok", some 1000000⟩ ∧
    (getVerses ⟨some "tok", some 1000000⟩ [] 0 "w" 2 "161,131" 1
        ⟨.success (some ⟨some "fresh", some 3600⟩), .failure 401,
          fun _ => some (some "v")⟩).outcome = .error .versesFailure :=
  ⟨rfl, rfl, rfl⟩

/-- C1 (amended): on a cache miss with a valid cached token, any
upstream failure — a 401 included — is not retried by either
operation: getVerses surfaces its generic verses failure immediately
after exactly one search attempt and zero detail fetches, and
getVerseDetails surfaces its generic details failure immediately after
exactly one by_key attempt; in both cases zero token-endpoint calls
are made (no invalidation, no re-acquisition) and the token state and
cache are returned unchanged. -/
theorem c1_upstream_failure_single_attempt (st st2 : TokenState)
    (c c2 : Cache) (now now2 : Int) (w : String) (s : Nat) (t : String)
    (p : Nat) (status status2 : Nat) (tr tr2 : TokenHttpResult)
    (dr : Nat → DetailFetchResult) (ref : String) (tids : String)
    (hmiss : cacheGet c now (versesCacheKey w s t p) = none)
    (hvalid : isTokenValid st now = true)
    (hmiss2 : cacheGet c2 now2 (detailsCacheKey ref tids) = none)
    (hvalid2 : isTokenValid st2 now2 = true) :
    getVerses st c now w s t p ⟨tr, .failure status, dr⟩ =
      ⟨.error .versesFailure, st, c, 0, 1, 0⟩ ∧
    getVerseDetails st2 c2 now2 ref tids ⟨tr2, .failure status2⟩ =
      ⟨.error .detailsFailure, st2, c2, 0, 0, 1⟩ := by
  constructor
  · simp only [getVerses, ensureValidToken, hmiss, hvalid, if_true]
  · simp only [getVerseDetails, ensureValidToken, hmiss2, hvalid2, if_true]

/-- C1 (witness): instances of the single-attempt behavior at a 401
with a concrete valid token, for both operations. -/
theorem c1_witness :
    getVerses ⟨some "tok", some 1000000⟩ [] 0 "مِن" 2 "161,131" 1
      ⟨.failure, .failure 401, fun _ => none⟩ =
      ⟨.error .versesFailure, ⟨some "tok", some 1000000⟩, [], 0, 1, 0⟩ ∧
    getVerseDetails ⟨some "tok", some 1000000⟩ [] 0 "2:255" "161,131"
      ⟨.failure, .failure 401⟩ =
      ⟨.error .detailsFailure, ⟨some "tok", some 1000000⟩, [], 0, 0, 1⟩ :=
  c1_upstream_failure_single_attempt ⟨some "tok", some 1000000⟩
    ⟨some "tok", some 1000000⟩ [] [] 0 0 "مِن" 2 "161,131" 1 401 401
    .failure .failure (fun _ => none) "2:255" "161,131" rfl rfl rfl rfl

/-- C2 (counterexample): when token acquisition fails inside a
getVerses invocation, the caller receives the generic verses failure —
the same error every upstream failure produces — and not the
authentication failure the token manager threw underneath. -/
theorem c2_auth_error_masked :
    (getVerses ⟨none, none⟩ [] 0 "w" 2 "161,131" 1
        ⟨.failure, .failure 500, fun _ => none⟩).outcome =
      .error .versesFailure ∧
    QError.versesFailure ≠ QError.authFailure :=
  ⟨rfl, by decide⟩

/-- C2 (amended): every failure getVerses surfaces is the one generic
verses-failure error and every failure getVerseDetails surfaces is the
one generic details-failure error; in particular the authentication
failure of the token exchange never reaches the caller of either
operation, so those callers cannot structurally distinguish a token
exchange failure from an unavailable content API. -/
theorem c2_errors_collapse (st : TokenState) (c : Cache) (now : Int)
    (w : String) (s : Nat) (t : String) (p : Nat) (o : VersesOracle)
    (ref : String) (tids : String) (o2 : DetailsOracle) :
    (∀ e, (getVerses st c now w s t p o).outcome = .error e →
      e = .versesFailure) ∧
    (∀ e, (getVerseDetails st c now ref tids o2).outcome = .error e →
      e = .detailsFailure) := by
  constructor <;> intro e he
  · rcases getVerses_cases st c now w s t p o with ⟨v, hv⟩ | ⟨herr, _⟩
    · rw [hv] at he; exact Except.noConfusion he
    · rw [herr] at he; exact (Except.error.inj he).symm
  · rcases getVerseDetails_cases st c now ref tids o2 with ⟨v, hv⟩ | ⟨herr, _⟩
    · rw [hv] at he; exact Except.noConfusion he
    · rw [herr] at he; exact (Except.error.inj he).symm

/-- C2 (witness): the collapse theorem applied to a concrete run whose
token exchange fails. -/
theorem c2_witness :
    QError.versesFailure = QError.versesFailure ∧
    QError.detailsFailure = QError.detailsFailure :=
  ⟨(c2_errors_collapse ⟨none, none⟩ [] 0 "w" 2 "161,131" 1
      ⟨.failure, .failure 500, fun _ => none⟩ "2:255" "161,131"
      ⟨.failure, .failure 500⟩).1 .versesFailure rfl,
   (c2_errors_collapse ⟨none, none⟩ [] 0 "w" 2 "161,131" 1
      ⟨.failure, .failure 500, fun _ => none⟩ "2:255" "161,131"
      ⟨.failure, .failure 500⟩).2 .detailsFailure rfl⟩

/-- C10: whenever getVerses or getVerseDetails throws — the token
exchange failed, the upstream call failed or timed out (an axios
throw), or the response was unusable — the verse cache is returned
exactly as it was: no entry is created or modified; a cache write
happens only on the fully successful assembly path. -/
theorem c10_no_cache_write_on_failure (st : TokenState) (c : Cache)
    (now : Int) (w : String) (s : Nat) (t : String) (p : Nat)
    (o : VersesOracle) (ref : String) (tids : String) (o2 : DetailsOracle) :
    (∀ e, (getVerses st c now w s t p o).outcome = .error e →
      (getVerses st c now w s t p o).cache = c) ∧
    (∀ e, (getVerseDetails st c now ref tids o2).outcome = .error e →
      (getVerseDetails st c now ref tids o2).cache = c) := by
  constructor <;> intro e he
  · rcases getVerses_cases st c now w s t p o with ⟨v, hv⟩ | ⟨_, hc⟩
    · rw [hv] at he; exact Except.noConfusion he
    · exact hc
  · rcases getVerseDetails_cases st c now ref tids o2 with ⟨v, hv⟩ | ⟨_, hc⟩
    · rw [hv] at he; exact Except.noConfusion he
    · exact hc

/-- C10 (witness): concrete failing runs (failed token exchange) leave
the empty cache empty. -/
theorem c10_witness :
    (getVerses ⟨none, none⟩ [] 0 "w" 2 "161,131" 1
      ⟨.failure, .failure 500, fun _ => none⟩).cache = ([] : Cache) ∧
    (getVerseDetails ⟨none, none⟩ [] 0 "2:255" "161,131"
      ⟨.failure, .failure 500⟩).cache = ([] : Cache) :=
  ⟨(c10_no_cache_write_on_failure ⟨none, none⟩ [] 0 "w" 2 "161,131" 1
      ⟨.failure, .failure 500, fun _ => none⟩ "2:255" "161,131"
      ⟨.failure, .failure 500⟩).1 .versesFailure rfl,
   (c10_no_cache_write_on_failure ⟨none, none⟩ [] 0 "w" 2 "161,131" 1
      ⟨.failure, .failure 500, fun _ => none⟩ "2:255" "161,131"
      ⟨.failure, .failure 500⟩).2 .detailsFailure rfl⟩

/-- C4 (counterexample): a 2xx grant response whose body carries neither
an access_token nor an expires_in field is treated as a success: no
AuthenticationFailure is raised and the previously held pair
(old token, old expiry) is clobbered with (undefined, NaN). -/
theorem c4_malformed_body_clobbers_token :
    getAccessToken ⟨some "old", some 999999⟩ 5 (.success (some ⟨none, none⟩)) =
      (.ok none, ⟨none, none⟩) ∧
    (TokenState.mk none none ≠ TokenState.mk (some "old") (some 999999)) := by
  exact ⟨rfl, by decide⟩

/-- C4 (amended): getAccessToken raises AuthenticationFailure and leaves
the held pair untouched on a network error or non-2xx status, and on a
2xx response whose null body makes the destructuring throw; on any other
2xx body it replaces the pair as a whole with (access_token,
now + expires_in * 1000) — taking (undefined, NaN) when the fields are
absent — and returns the access_token field without raising. -/
theorem c4_getAccessToken_spec (st : TokenState) (now : Int) :
    getAccessToken st now .failure = (.error .authFailure, st) ∧
    getAccessToken st now (.success none) = (.error .authFailure, st) ∧
    (∀ tok : Option String, ∀ x : Int,
      getAccessToken st now (.success (some ⟨tok, some x⟩)) =
        (.ok tok, ⟨tok, some (now + x * 1000)⟩)) ∧
    (∀ tok : Option String,
      getAccessToken st now (.success (some ⟨tok, none⟩)) = (.ok tok, ⟨tok, none⟩)) :=
  ⟨rfl, rfl, fun _ _ => rfl, fun _ => rfl⟩

/-- C6: isTokenValid is false when no token or no expiry is held; with
a held (non-falsy) pair it is false when the remaining lifetime
expiry - now lies in (0 ms, 30000 ms], true when it exceeds 30000 ms,
and false when the expiry is not in the future. -/
theorem c6_isTokenValid_spec (t : String) (e now : Int)
    (ht : t ≠ "") (he : e ≠ 0) :
    (0 < e - now ∧ e - now ≤ 30000 →
      isTokenValid ⟨some t, some e⟩ now = false) ∧
    (30000 < e - now → isTokenValid ⟨some t, some e⟩ now = true) ∧
    (e ≤ now → isTokenValid ⟨some t, some e⟩ now = false) ∧
    (∀ eo : Option Int, isTokenValid ⟨none, eo⟩ now = false) ∧
    (isTokenValid ⟨some t, none⟩ now = false) := by
  have hb : isTokenValid ⟨some t, some e⟩ now = decide (e - now > 30000) := by
    simp [isTokenValid, ht, he]
  refine ⟨fun hr => ?_, fun hr => ?_, fun hr => ?_, fun eo => rfl, rfl⟩ <;>
    rw [hb] <;> simp <;> omega

/-- C6 (witness): a token 40 s from expiry is valid, one 20 s from
expiry is not. -/
theorem c6_witness :
    isTokenValid ⟨some "tok", some 40000⟩ 0 = true ∧
    isTokenValid ⟨some "tok", some 20000⟩ 0 = false :=
  ⟨(c6_isTokenValid_spec "tok" 40000 0 (by decide) (by decide)).2.1 (by decide),
   (c6_isTokenValid_spec "tok" 20000 0 (by decide) (by decide)).1 (by decide)⟩

/-- C9 (counterexample): the constructor accepts a third environment
value without any rejection: the tag staging is stored as-is and the
service comes up resolved to the pre-production URL pair. -/
theorem c9_third_env_value_accepted :
    mkQuranService (some "staging") =
      ⟨"staging", "https://prelive-oauth2.quran.foundation",
        "https://apis-prelive.quran.foundation"⟩ ∧
    ("staging" : String) ≠ "prelive" ∧ ("staging" : String) ≠ "production" :=
  ⟨rfl, by decide, by decide⟩

/-- URL resolution as a function of the stored environment tag: the
production pair exactly for the tag production, the pre-production pair
for every other tag. -/
theorem urls_resolution (env : String) :
    (env = "production" →
      getAuthUrl env = "https://oauth2.quran.foundation" ∧
      getApiBaseUrl env = "https://apis.quran.foundation") ∧
    (env ≠ "production" →
      getAuthUrl env = "https://prelive-oauth2.quran.foundation" ∧
      getApiBaseUrl env = "https://apis-prelive.quran.foundation") := by
  constructor <;> intro h <;> simp [getAuthUrl, getApiBaseUrl, h]

/-- C9 (amended): the environment tag defaults to prelive when the
variable is unset or empty; the tag is not validated — the production
URL pair is selected exactly when the stored tag is production, and
every other tag falls back to the pre-production pair; both URLs are
resolved once at construction from the stored tag. -/
theorem c9_env_resolution (qfEnv : Option String) :
    (mkQuranService none).environment = "prelive" ∧
    (mkQuranService (some "")).environment = "prelive" ∧
    ((mkQuranService qfEnv).environment = "production" →
      (mkQuranService qfEnv).authUrl = "https://oauth2.quran.foundation" ∧
      (mkQuranService qfEnv).apiBaseUrl = "https://apis.quran.foundation") ∧
    ((mkQuranService qfEnv).environment ≠ "production" →
      (mkQuranService qfEnv).authUrl = "https://prelive-oauth2.quran.foundation" ∧
      (mkQuranService qfEnv).apiBaseUrl = "https://apis-prelive.quran.foundation") := by
  have h1 := urls_resolution (mkQuranService qfEnv).environment
  exact ⟨rfl, rfl, fun h => h1.1 h, fun h => h1.2 h⟩

/-- C9 (witness): the production tag selects the production
authorization endpoint; the staging tag falls back to the
pre-production one. -/
theorem c9_witness :
    (mkQuranService (some "production")).authUrl = "https://oauth2.quran.foundation" ∧
    (mkQuranService (some "staging")).authUrl = "https://prelive-oauth2.quran.foundation" :=
  ⟨((c9_env_resolution (some "production")).2.2.1 (by decide)).1,
   ((c9_env_resolution (some "staging")).2.2.2 (by decide)).1⟩

/-- C3 (counterexample): a cache-miss getVerses run whose search
returns zero keys answers with the empty result, but writes nothing to
the cache: the cache afterwards is still empty, so the negative result
is not stored at all (with any TTL). -/
theorem c3_empty_result_not_cached :
    (getVerses ⟨some "tok", some 1000000⟩ [] 0 "w" 2 "161,131" 1
        ⟨.failure, .success (some ⟨[], some ⟨1, 0, 0⟩⟩), fun _ => none⟩).cache =
      ([] : Cache) ∧
    (getVerses ⟨some "tok", some 1000000⟩ [] 0 "w" 2 "161,131" 1
        ⟨.failure, .success (some ⟨[], some ⟨1, 0, 0⟩⟩), fun _ => none⟩).outcome =
      .ok (.verses ⟨true, [], "w", ⟨1, 0, 0⟩⟩) :=
  ⟨rfl, rfl⟩

/-- C3 (amended): on a cache miss whose token step succeeds and whose
search returns zero result keys, getVerses returns immediately with the
empty result list and the upstream pagination descriptor (or the zeroed
fallback when upstream reported none), performs zero detail fetches —
but the empty result is not cached: the cache is returned unchanged,
so only non-empty assemblies are stored. -/
theorem c3_empty_search_short_circuit (st st' : TokenState) (c : Cache)
    (now : Int) (w : String) (s : Nat) (t : String) (p : Nat)
    (tr : TokenHttpResult) (dr : Nat → DetailFetchResult)
    (pag : Option Pagination) (tokv : Option String) (n : Nat)
    (hmiss : cacheGet c now (versesCacheKey w s t p) = none)
    (htok : ensureValidToken st now tr = (.ok tokv, st', n)) :
    getVerses st c now w s t p ⟨tr, .success (some ⟨[], pag⟩), dr⟩ =
      ⟨.ok (.verses ⟨true, [], w, pag.getD ⟨(p : Int), 0, 0⟩⟩), st', c, n, 1, 0⟩ := by
  simp only [getVerses, hmiss, htok, Option.map_some', Option.getD_some,
    List.isEmpty_nil, eq_self_iff_true, if_true]

/-- C3 (witness): instance of the empty-search short-circuit with an
upstream pagination descriptor present. -/
theorem c3_witness :
    getVerses ⟨some "tok", some 1000000⟩ [] 0 "سماء" 2 "161,131" 1
      ⟨.failure, .success (some ⟨[], some ⟨1, 0, 0⟩⟩), fun _ => none⟩ =
      ⟨.ok (.verses ⟨true, [], "سماء", ⟨1, 0, 0⟩⟩),
        ⟨some "tok", some 1000000⟩, [], 0, 1, 0⟩ :=
  c3_empty_search_short_circuit ⟨some "tok", some 1000000⟩
    ⟨some "tok", some 1000000⟩ [] 0 "سماء" 2 "161,131" 1 .failure
    (fun _ => none) (some ⟨1, 0, 0⟩) (some "tok") 0 rfl rfl

/-- Reading a list of per-index responses back through List.getD over
the index range recovers the non-null entries of the list itself. -/
theorem range_filterMap_getD {α : Type} (ds : List (Option α)) :
    (List.range ds.length).filterMap (fun i => ds.getD i none) =
      ds.filterMap id := by
  induction ds with
  | nil => rfl
  | cons a tl ih =>
    have hcomp : ((fun i => (a :: tl).getD i none) ∘ Nat.succ) =
        fun i => tl.getD i none := by
      funext i; rfl
    cases a with
    | none =>
      rw [List.length_cons, List.range_succ_eq_map,
        List.filterMap_cons_none rfl, List.filterMap_map, hcomp, ih,
        List.filterMap_cons_none rfl]
    | some x =>
      rw [List.length_cons, List.range_succ_eq_map,
        @List.filterMap_cons_some Nat α (fun i => (some x :: tl).getD i none) 0
          (List.map Nat.succ (List.range tl.length)) x rfl,
        List.filterMap_map, hcomp, ih,
        @List.filterMap_cons_some (Option α) α id (some x) tl x rfl]

/-- C7: on a cache miss whose token step succeeds and whose search
returns a non-empty hit list, with the detail fetch for index i
answering ds.getD i none (none standing for a thrown fetch), getVerses
reports success whatever the fetch outcomes are — every thrown fetch is
swallowed and its key dropped — and the hydrated list is exactly the
non-thrown fetch results in original search order (ds.filterMap id);
one detail call is made per hit. -/
theorem c7_partial_hydration (st st' : TokenState) (c : Cache) (now : Int)
    (w : String) (s : Nat) (t : String) (p : Nat) (tr : TokenHttpResult)
    (pag : Option Pagination) (a : String) (tl : List String)
    (ds : List DetailFetchResult) (tokv : Option String) (n : Nat)
    (hmiss : cacheGet c now (versesCacheKey w s t p) = none)
    (htok : ensureValidToken st now tr = (.ok tokv, st', n))
    (hlen : ds.length = (a :: tl).length) :
    getVerses st c now w s t p
        ⟨tr, .success (some ⟨a :: tl, pag⟩), fun i => ds.getD i none⟩ =
      ⟨.ok (.verses ⟨true, ds.filterMap id, w,
          pag.getD ⟨(p : Int), 1, ((ds.filterMap id).length : Int)⟩⟩),
        st',
        cacheSet c (versesCacheKey w s t p)
          (.verses ⟨true, ds.filterMap id, w,
            pag.getD ⟨(p : Int), 1, ((ds.filterMap id).length : Int)⟩⟩) now,
        n, 1, (a :: tl).length⟩ := by
  have hre : (List.range (a :: tl).length).filterMap (fun i => ds.getD i none) =
      ds.filterMap id := by
    rw [← hlen]; exact range_filterMap_getD ds
  simp only [getVerses, hmiss, htok, Option.map_some', Option.getD_some,
    List.isEmpty_cons, Bool.false_eq_true, if_false, hre]

/-- C7 (witness): the testable-property instance — three search hits,
the middle detail fetch throws, the result reports success with exactly
the two hydrated verses in original search order and one detail call
per hit. -/
theorem c7_witness :
    getVerses ⟨some "tok", some 1000000⟩ [] 0 "w" 3 "161,131" 1
      ⟨.failure, .success (some ⟨["1:1", "1:2", "1:3"], some ⟨1, 1, 3⟩⟩),
        fun i => [some (some "v1"), none, some (some "v3")].getD i none⟩ =
      ⟨.ok (.verses ⟨true, [some "v1", some "v3"], "w", ⟨1, 1, 3⟩⟩),
        ⟨some "tok", some 1000000⟩,
        [(versesCacheKey "w" 3 "161,131" 1,
          ⟨.verses ⟨true, [some "v1", some "v3"], "w", ⟨1, 1, 3⟩⟩, 0⟩)],
        0, 1, 3⟩ :=
  c7_partial_hydration ⟨some "tok", some 1000000⟩ ⟨some "tok", some 1000000⟩
    [] 0 "w" 3 "161,131" 1 .failure (some ⟨1, 1, 3⟩) "1:1" ["1:2", "1:3"]
    [some (some "v1"), none, some (some "v3")] (some "tok") 0 rfl rfl rfl

/-- C8: when the computed key holds an unexpired entry, getVerses and
getVerseDetails return the stored payload verbatim with zero calls to
the token, search and detail endpoints, and leave both the token state
and the cache untouched; a second call in the same (unchanged) state
returns the identical payload again. -/
theorem c8_cache_hit (st : TokenState) (c : Cache) (now : Int) (w : String)
    (s : Nat) (t : String) (p : Nat) (o : VersesOracle) (ref : String)
    (tids : String) (o2 : DetailsOracle) (v v2 : CacheValue)
    (hv : cacheGet c now (versesCacheKey w s t p) = some v)
    (hd : cacheGet c now (detailsCacheKey ref tids) = some v2) :
    getVerses st c now w s t p o = ⟨.ok v, st, c, 0, 0, 0⟩ ∧
    getVerseDetails st c now ref tids o2 = ⟨.ok v2, st, c, 0, 0, 0⟩ ∧
    getVerses (getVerses st c now w s t p o).token
      (getVerses st c now w s t p o).cache now w s t p o =
      ⟨.ok v, st, c, 0, 0, 0⟩ := by
  have h1 : getVerses st c now w s t p o = ⟨.ok v, st, c, 0, 0, 0⟩ := by
    simp only [getVerses, hv]
  have h2 : getVerseDetails st c now ref tids o2 = ⟨.ok v2, st, c, 0, 0, 0⟩ := by
    simp only [getVerseDetails, hd]
  refine ⟨h1, h2, ?_⟩
  rw [h1]
  exact h1

/-- C8 (witness): cache hits on a concrete populated cache return the
stored payloads with zero upstream calls and unchanged state. -/
theorem c8_witness :
    getVerses ⟨none, none⟩ sampleCache 5 "مِن" 2 "161,131" 1
      ⟨.failure, .failure 500, fun _ => none⟩ =
      ⟨.ok sampleVersesValue, ⟨none, none⟩, sampleCache, 0, 0, 0⟩ ∧
    getVerseDetails ⟨none, none⟩ sampleCache 5 "2:255" "161,131"
      ⟨.failure, .failure 500⟩ =
      ⟨.ok sampleDetailValue, ⟨none, none⟩, sampleCache, 0, 0, 0⟩ :=
  ⟨(c8_cache_hit ⟨none, none⟩ sampleCache 5 "مِن" 2 "161,131" 1
      ⟨.failure, .failure 500, fun _ => none⟩ "2:255" "161,131"
      ⟨.failure, .failure 500⟩ sampleVersesValue sampleDetailValue rfl rfl).1,
   (c8_cache_hit ⟨none, none⟩ sampleCache 5 "مِن" 2 "161,131" 1
      ⟨.failure, .failure 500, fun _ => none⟩ "2:255" "161,131"
      ⟨.failure, .failure 500⟩ sampleVersesValue sampleDetailValue rfl rfl).2.1⟩

/-! ## Decimal representation and cache-key lemmas -/

/-- Appending strings concatenates their character data. -/
theorem string_append_data (a b : String) : (a ++ b).data = a.data ++ b.data :=
  rfl

/-- Every digit natDigitsAux produces is below 10. -/
theorem natDigitsAux_lt : ∀ fuel n : Nat, ∀ d ∈ natDigitsAux fuel n, d < 10 := by
  intro fuel
  induction fuel with
  | zero => intro n d hd; cases n <;> simp [natDigitsAux] at hd
  | succ f ih =>
    intro n d hd
    cases n with
    | zero => simp [natDigitsAux] at hd
    | succ m =>
      simp only [natDigitsAux] at hd
      rcases List.mem_cons.mp hd with h | h
      · omega
      · exact ih _ d h

/-- With enough fuel, natDigitsAux is a section of the base-10 digit
evaluation. -/
theorem ofDigits_natDigitsAux : ∀ fuel n : Nat, n ≤ fuel →
    Nat.ofDigits 10 (natDigitsAux fuel n) = n := by
  intro fuel
  induction fuel with
  | zero =>
    intro n hn
    obtain rfl := Nat.le_zero.mp hn
    simp [natDigitsAux]
  | succ f ih =>
    intro n hn
    cases n with
    | zero => simp [natDigitsAux]
    | succ m =>
      have hdiv : (m + 1) / 10 ≤ f := by
        have := Nat.div_lt_self (Nat.succ_pos m) (by omega : 1 < 10)
        omega
      show Nat.ofDigits 10 ((m + 1) % 10 :: natDigitsAux f ((m + 1) / 10)) = m + 1
      rw [Nat.ofDigits_cons, ih _ hdiv]
      omega

/-- The decimal digit characters below 10 are pairwise distinct. -/
theorem digitChar_inj_lt : ∀ d1 < 10, ∀ d2 < 10,
    Nat.digitChar d1 = Nat.digitChar d2 → d1 = d2 := by decide

/-- No decimal digit character is a colon. -/
theorem digitChar_ne_colon : ∀ d < 10, Nat.digitChar d ≠ ':' := by decide

/-- Mapping digitChar over lists of digits below 10 is injective. -/
theorem map_digitChar_inj : ∀ l1 l2 : List Nat, (∀ d ∈ l1, d < 10) →
    (∀ d ∈ l2, d < 10) → l1.map Nat.digitChar = l2.map Nat.digitChar →
    l1 = l2 := by
  intro l1
  induction l1 with
  | nil =>
    intro l2 _ _ h
    cases l2 with
    | nil => rfl
    | cons b tb => simp at h
  | cons a ta ih =>
    intro l2 hb1 hb2 h
    cases l2 with
    | nil => simp at h
    | cons b tb =>
      simp only [List.map_cons, List.cons.injEq] at h
      have ha : a < 10 := hb1 a (List.mem_cons_self a ta)
      have hb : b < 10 := hb2 b (List.mem_cons_self b tb)
      rw [digitChar_inj_lt a ha b hb h.1,
        ih tb (fun d hd => hb1 d (List.mem_cons_of_mem a hd))
          (fun d hd => hb2 d (List.mem_cons_of_mem b hd)) h.2]

/-- The decimal representation never contains a colon. -/
theorem natRepr_colon_free (n : Nat) : ':' ∉ (natRepr n).data := by
  by_cases hn : n = 0
  · subst hn; decide
  · simp only [natRepr, hn, if_false]
    intro hmem
    rw [List.mem_reverse] at hmem
    obtain ⟨d, hd, hchar⟩ := List.mem_map.mp hmem
    exact absurd hchar (digitChar_ne_colon d (natDigitsAux_lt n n d hd))

/-- The decimal representation is injective. -/
theorem natRepr_inj {m n : Nat} (h : natRepr m = natRepr n) : m = n := by
  have hof : ∀ k : Nat, Nat.ofDigits 10 (natDigits k) = k := fun k =>
    ofDigits_natDigitsAux k k le_rfl
  by_cases hm : m = 0 <;> by_cases hn : n = 0
  · omega
  · exfalso
    subst hm
    simp only [natRepr, if_true, hn, if_false, eq_self_iff_true] at h
    have hdata := congrArg String.data h
    have hrev : (natDigits n).map Nat.digitChar = ['0'] := by
      have := congrArg List.reverse hdata
      simpa using this.symm
    rcases hL : natDigits n with _ | ⟨d, ls⟩
    · rw [hL] at hrev; simp at hrev
    · rw [hL] at hrev
      simp only [List.map_cons, List.cons.injEq, List.map_eq_nil_iff] at hrev
      have hd10 : d < 10 := natDigitsAux_lt n n d
        (show d ∈ natDigits n by rw [hL]; exact List.mem_cons_self d ls)
      have hd0 : d = 0 :=
        digitChar_inj_lt d hd10 0 (by omega) (by simpa using hrev.1)
      have := hof n
      rw [hL, hd0, hrev.2] at this
      simp [Nat.ofDigits] at this
      exact hn this.symm
  · exfalso
    subst hn
    simp only [natRepr, if_true, hm, if_false, eq_self_iff_true] at h
    have hdata := congrArg String.data h
    have hrev : (natDigits m).map Nat.digitChar = ['0'] := by
      have := congrArg List.reverse hdata
      simpa using this
    rcases hL : natDigits m with _ | ⟨d, ls⟩
    · rw [hL] at hrev; simp at hrev
    · rw [hL] at hrev
      simp only [List.map_cons, List.cons.injEq, List.map_eq_nil_iff] at hrev
      have hd10 : d < 10 := natDigitsAux_lt m m d
        (show d ∈ natDigits m by rw [hL]; exact List.mem_cons_self d ls)
      have hd0 : d = 0 :=
        digitChar_inj_lt d hd10 0 (by omega) (by simpa using hrev.1)
      have := hof m
      rw [hL, hd0, hrev.2] at this
      simp [Nat.ofDigits] at this
      exact hm this.symm
  · simp only [natRepr, hm, hn, if_false] at h
    have hdata := congrArg String.data h
    have hmap : (natDigits m).map Nat.digitChar = (natDigits n).map Nat.digitChar :=
      List.reverse_injective hdata
    have hdig : natDigits m = natDigits n :=
      map_digitChar_inj _ _ (natDigitsAux_lt m m) (natDigitsAux_lt n n) hmap
    rw [← hof m, ← hof n, hdig]

/-- A colon-headed split of a character list is unique when the prefix
is colon-free: the prefix is everything before the first colon. -/
theorem colon_cancel {l1 r1 l2 r2 : List Char} (h1 : ':' ∉ l1) (h2 : ':' ∉ l2)
    (h : l1 ++ ':' :: r1 = l2 ++ ':' :: r2) : l1 = l2 ∧ r1 = r2 := by
  induction l1 generalizing l2 with
  | nil =>
    cases l2 with
    | nil => simpa using h
    | cons b tb =>
      exfalso
      simp only [List.nil_append, List.cons_append, List.cons.injEq] at h
      obtain ⟨hb, _⟩ := h
      subst hb
      exact absurd (List.mem_cons_self _ _) h2
  | cons a ta ih =>
    cases l2 with
    | nil =>
      exfalso
      simp only [List.nil_append, List.cons_append, List.cons.injEq] at h
      obtain ⟨ha, _⟩ := h
      exact absurd (ha ▸ List.mem_cons_self a ta) h1
    | cons b tb =>
      simp only [List.cons_append, List.cons.injEq] at h
      obtain ⟨hab, hrest⟩ := h
      have h1t : ':' ∉ ta := fun hm => h1 (List.mem_cons_of_mem a hm)
      have h2t : ':' ∉ tb := fun hm => h2 (List.mem_cons_of_mem b hm)
      obtain ⟨hta, hr⟩ := ih h1t h2t hrest
      exact ⟨by rw [hab, hta], hr⟩

/-- The character data of a verses cache key, right-nested around its
colons. -/
theorem versesCacheKey_data (w : String) (s : Nat) (t : String) (p : Nat) :
    (versesCacheKey w s t p).data =
      'v' :: 'e' :: 'r' :: 's' :: 'e' :: 's' :: ':' ::
        (w.data ++ ':' :: ((natRepr s).data ++ ':' ::
          (t.data ++ ':' :: (natRepr p).data))) := by
  show ('v' :: 'e' :: 'r' :: 's' :: 'e' :: 's' :: ':' ::
      ((((((w.data ++ [':']) ++ (natRepr s).data) ++ [':']) ++ t.data)
        ++ [':']) ++ (natRepr p).data) : List Char) = _
  simp [List.append_assoc]

/-- The character data of a details cache key. -/
theorem detailsCacheKey_data (ref tids : String) :
    (detailsCacheKey ref tids).data =
      'v' :: 'e' :: 'r' :: 's' :: 'e' :: ':' :: (ref.data ++ ':' :: tids.data) := by
  show ('v' :: 'e' :: 'r' :: 's' :: 'e' :: ':' ::
      ((ref.data ++ [':']) ++ tids.data) : List Char) = _
  simp [List.append_assoc]

/-- Reversing moves a final colon-free segment to the front. -/
theorem reverse_append_colon (a b : List Char) :
    (a ++ ':' :: b).reverse = b.reverse ++ ':' :: a.reverse := by
  simp [List.reverse_append]

/-- C5 (counterexample): the colon-joined key is not injective on the
raw input tuples: a query containing a colon collides with a different
tuple whose size and translation list absorb the shift — the tuples
(query a:1, size 2, translations t, page 1) and (query a, size 1,
translations 2:t, page 1) differ but produce the same cache key. -/
theorem c5_colon_collision :
    versesCacheKey "a:1" 2 "t" 1 = versesCacheKey "a" 1 "2:t" 1 ∧
    ¬(("a:1" : String) = "a" ∧ (2 : Nat) = 1 ∧ ("t" : String) = "2:t" ∧
      (1 : Nat) = 1) :=
  ⟨rfl, by decide⟩

/-- C5 (amended): the cache keys are injective on the input tuples as
long as the free-text components carry no colon: two verses keys agree
exactly when query, size, translation list (order included) and page
all agree, provided the two queries and translation lists are
colon-free; two details keys agree exactly when reference and
translation list agree, provided the translation lists are colon-free
(references may contain colons). In particular keys with the same
translation set in different order are distinct entries. -/
theorem c5_cache_key_injectivity
    (w1 t1 w2 t2 ref1 tids1 ref2 tids2 : String) (s1 p1 s2 p2 : Nat)
    (hw1 : ':' ∉ w1.data) (ht1 : ':' ∉ t1.data)
    (hw2 : ':' ∉ w2.data) (ht2 : ':' ∉ t2.data)
    (htd1 : ':' ∉ tids1.data) (htd2 : ':' ∉ tids2.data) :
    (versesCacheKey w1 s1 t1 p1 = versesCacheKey w2 s2 t2 p2 ↔
      w1 = w2 ∧ s1 = s2 ∧ t1 = t2 ∧ p1 = p2) ∧
    (detailsCacheKey ref1 tids1 = detailsCacheKey ref2 tids2 ↔
      ref1 = ref2 ∧ tids1 = tids2) := by
  constructor
  · constructor
    · intro h
      have hdata := congrArg String.data h
      rw [versesCacheKey_data, versesCacheKey_data] at hdata
      simp only [List.cons.injEq, true_and] at hdata
      obtain ⟨hw, hdata2⟩ := colon_cancel hw1 hw2 hdata
      obtain ⟨hs, hdata3⟩ :=
        colon_cancel (natRepr_colon_free s1) (natRepr_colon_free s2) hdata2
      obtain ⟨ht, hp⟩ := colon_cancel ht1 ht2 hdata3
      exact ⟨string_data_inj hw, natRepr_inj (string_data_inj hs),
        string_data_inj ht, natRepr_inj (string_data_inj hp)⟩
    · rintro ⟨rfl, rfl, rfl, rfl⟩; rfl
  · constructor
    · intro h
      have hdata := congrArg String.data h
      rw [detailsCacheKey_data, detailsCacheKey_data] at hdata
      simp only [List.cons.injEq, true_and] at hdata
      have hrev := congrArg List.reverse hdata
      rw [reverse_append_colon, reverse_append_colon] at hrev
      have htd1r : ':' ∉ tids1.data.reverse := fun hm =>
        htd1 (List.mem_reverse.mp hm)
      have htd2r : ':' ∉ tids2.data.reverse := fun hm =>
        htd2 (List.mem_reverse.mp hm)
      obtain ⟨htids, hrefs⟩ := colon_cancel htd1r htd2r hrev
      exact ⟨string_data_inj (List.reverse_injective hrefs),
        string_data_inj (List.reverse_injective htids)⟩
    · rintro ⟨rfl, rfl⟩; rfl

/-- C5 (witness): the two orderings of the same translation set from
the spec's example produce distinct cache keys. -/
theorem c5_witness :
    versesCacheKey "مِن" 2 "161,131" 1 ≠ versesCacheKey "مِن" 2 "131,161" 1 := by
  intro h
  have hinj := ((c5_cache_key_injectivity "مِن" "161,131" "مِن" "131,161"
      "2:255" "161" "2:255" "161" 2 1 2 1 (by decide) (by decide) (by decide)
      (by decide) (by decide) (by decide)).1).mp h
  exact absurd hinj.2.2.1 (by decide)

end QuranSrv
